import Mathlib

/-!
Verification of the gland HTTP core against its specification.

The development shallowly embeds the three source files of the repository:
`src/lib/utils/decorator.utils.ts` (RouteNormalizer), the HTTP adapter
(`HttpAdapter._listen`), and `src/packages/http/http-core.ts` (HttpCore).
Strings are modelled as Lean `String` (a list of characters); a JavaScript
function that may `throw` is modelled as a function into `Option`/`Except`,
where `none`/`.error` is the thrown outcome.
-/

namespace Gland

/-! ## RouteNormalizer (src/lib/utils/decorator.utils.ts)

`normalizePath` executes `` `/${path}`.replace(/\/+/g, '/').replace(/\/$/, '') ``:
it prepends a slash, collapses every maximal run of slashes to a single slash,
and removes one trailing slash if present.
-/

/-- One pass of ``replace(/\/+/g, '/')`` over a character list.  The Boolean
argument records whether the previous character belonged to a run of slashes:
a slash opening a run is emitted once, the rest of the run is dropped. -/
def collapseAux : Bool → List Char → List Char
  | _, [] => []
  | prevSlash, c :: rest =>
    if c = '/' then
      if prevSlash then collapseAux true rest
      else '/' :: collapseAux true rest
    else c :: collapseAux false rest

/-- ``replace(/\/+/g, '/')``: collapse every run of slashes to a single slash. -/
def collapseSlashes (l : List Char) : List Char := collapseAux false l

/-- ``replace(/\/$/, '')``: remove one trailing slash when the string ends with
a slash, otherwise leave the string unchanged. -/
def stripTrailingSlash (l : List Char) : List Char :=
  if l.getLast? = some '/' then l.dropLast else l

/-- `RouteNormalizer.normalizePath(path)`.  `none` models the thrown
`Error('Path cannot be empty.')` (the spec's ValidationError), raised exactly
when `!path` holds, i.e. when the string is empty; otherwise the result is
`` `/${path}` `` with slash runs collapsed and one trailing slash stripped. -/
def normalizePath (path : String) : Option String :=
  if path = "" then none
  else some (String.mk (stripTrailingSlash (collapseSlashes ('/' :: path.data))))

/-- The prefix handling of `combinePaths`:
`prefix ? this.normalizePath(prefix) : ''`.  An absent prefix (`undefined`)
and the empty string are both falsy in JavaScript, so both yield `''` without
calling `normalizePath`. -/
def normalizedPfx : Option String → Option String
  | none => some ""
  | some p => if p = "" then some "" else normalizePath p

/-- `RouteNormalizer.combinePaths(prefix, path)`: normalize the prefix (or take
`''`), normalize the path, concatenate, and collapse slash runs in the
concatenation (`` `${normalizedPrefix}${normalizedPath}`.replace(/\/+/g, '/') ``).
`none` models a `normalizePath` throw propagating to the caller. -/
def combinePaths (pfx : Option String) (path : String) : Option String := do
  let np ← normalizedPfx pfx
  let npath ← normalizePath path
  pure (String.mk (collapseSlashes (np.data ++ npath.data)))

/-- A JavaScript runtime value, restricted to the shapes the embedded code
inspects: strings, functions (identified by a tag), arrays, and `undefined`
standing for every other value. -/
inductive JsVal where
  | str (s : String)
  | fn (id : Nat)
  | arr (elems : List JsVal)
  | undef

/-- `isString` from `@medishn/toolkit`: the value is a string. -/
def isString : JsVal → Bool
  | .str _ => true
  | _ => false

/-- `isFunction` from `@medishn/toolkit`: the value is a function. -/
def isFunction : JsVal → Bool
  | .fn _ => true
  | _ => false

/-- The value is JavaScript's `undefined`. -/
def isUndefined : JsVal → Bool
  | .undef => true
  | _ => false

/-- The underlying string of a string value (only used under an `isString`
guard). -/
def asString : JsVal → String
  | .str s => s
  | _ => ""

/-- `RouteNormalizer.validateMethod(target, propertyKey)`.  The target's
`constructor.prototype` is modelled as the lookup function `proto`: the member
is static exactly when `proto propertyKey` is `undefined`, and then an error
naming the property is thrown (`.error`); otherwise the call returns
(`.ok ()`) with no other effect. -/
def validateMethod (proto : String → JsVal) (propertyKey : String) :
    Except String Unit :=
  if isUndefined (proto propertyKey) then
    Except.error ("Decorators cannot be applied to static methods: " ++ propertyKey)
  else Except.ok ()

/-- No two adjacent characters of the list are both `'/'`. -/
def noDoubleSlash : List Char → Bool
  | [] => true
  | a :: rest => !(a = '/' && rest.head? = some '/') && noDoubleSlash rest

/-- A normalized path in the sense of the spec: non-empty, starts with exactly
one separator (the head is `'/'` and, by `noDoubleSlash`, the second character
is not), contains no repeated separator and no trailing separator. -/
def isNormalized (s : String) : Bool :=
  (s.data.head? = some '/') && noDoubleSlash s.data && !(s.data.getLast? = some '/')

example : normalizePath "//a//b/" = some "/a/b" := by decide
example : normalizePath "/" = some "" := by decide
example : normalizePath "" = none := by decide
example : combinePaths (some "/api") "/users" = some "/api/users" := by decide
example : combinePaths none "/users" = some "/users" := by decide

/-! ### Lemmas about slash collapsing -/

lemma collapseAux_true_head : ∀ l : List Char, (collapseAux true l).head? ≠ some '/'
  | [] => by simp [collapseAux]
  | c :: rest => by
    by_cases hc : c = '/'
    · simpa [collapseAux, hc] using collapseAux_true_head rest
    · simp [collapseAux, hc]

lemma noDoubleSlash_collapseAux : ∀ (l : List Char) (b : Bool),
    noDoubleSlash (collapseAux b l) = true
  | [], b => by simp [collapseAux, noDoubleSlash]
  | c :: rest, b => by
    by_cases hc : c = '/'
    · cases b with
      | true => simpa [collapseAux, hc] using noDoubleSlash_collapseAux rest true
      | false =>
        have hhead := collapseAux_true_head rest
        simp only [collapseAux, hc, if_pos rfl, if_neg (Bool.false_ne_true)]
        simp [noDoubleSlash, noDoubleSlash_collapseAux rest true]
        intro h
        exact absurd h hhead
    · simp only [collapseAux, if_neg hc]
      simp [noDoubleSlash, hc, noDoubleSlash_collapseAux rest false]

lemma collapseAux_id : ∀ l : List Char, noDoubleSlash l = true →
    collapseAux false l = l ∧ (l.head? ≠ some '/' → collapseAux true l = l)
  | [] => by simp [collapseAux]
  | c :: rest => by
    intro h
    simp only [noDoubleSlash, Bool.and_eq_true, Bool.not_eq_true'] at h
    obtain ⟨hpair, hrest⟩ := h
    have ih := collapseAux_id rest hrest
    by_cases hc : c = '/'
    · subst hc
      have hhd : rest.head? ≠ some '/' := by
        intro hh
        simp [hh] at hpair
      constructor
      · simp [collapseAux, ih.2 hhd]
      · intro habs
        simp at habs
    · constructor
      · simp [collapseAux, hc, ih.1]
      · intro _
        simp [collapseAux, hc, ih.1]

lemma collapseAux_true_eq_nil : ∀ l : List Char,
    (collapseAux true l = [] ↔ ∀ c ∈ l, c = '/')
  | [] => by simp [collapseAux]
  | c :: rest => by
    by_cases hc : c = '/'
    · simpa [collapseAux, hc] using collapseAux_true_eq_nil rest
    · simp [collapseAux, hc]

lemma noDoubleSlash_concat_pair : ∀ xs : List Char,
    noDoubleSlash (xs ++ ['/', '/']) = false
  | [] => by simp [noDoubleSlash]
  | x :: xs => by
    simp [noDoubleSlash, noDoubleSlash_concat_pair xs]

lemma noDoubleSlash_of_append_left : ∀ xs ys : List Char,
    noDoubleSlash (xs ++ ys) = true → noDoubleSlash xs = true
  | [], _, _ => rfl
  | x :: xs, ys, h => by
    simp only [List.cons_append, noDoubleSlash, Bool.and_eq_true] at h ⊢
    refine ⟨?_, noDoubleSlash_of_append_left xs ys h.2⟩
    cases xs with
    | nil => simp
    | cons a as => simpa using h.1

lemma noDoubleSlash_append : ∀ xs ys : List Char, noDoubleSlash xs = true →
    noDoubleSlash ys = true → xs.getLast? ≠ some '/' →
    noDoubleSlash (xs ++ ys) = true
  | [], ys, _, hys, _ => hys
  | x :: xs, ys, hxs, hys, hlast => by
    simp only [noDoubleSlash, Bool.and_eq_true] at hxs
    cases xs with
    | nil =>
      have hx : x ≠ '/' := by
        intro hx
        exact hlast (by simp [hx])
      simp [noDoubleSlash, hx, noDoubleSlash, hys]
    | cons a as =>
      have hlast' : (a :: as).getLast? ≠ some '/' := by
        simpa [List.getLast?_cons_cons] using hlast
      have := noDoubleSlash_append (a :: as) ys hxs.2 hys hlast'
      simp only [List.cons_append, noDoubleSlash, Bool.and_eq_true] at this ⊢
      refine ⟨?_, this⟩
      simpa using hxs.1

lemma stripTrailingSlash_getLast : ∀ l : List Char, noDoubleSlash l = true →
    (stripTrailingSlash l).getLast? ≠ some '/' := by
  intro l hl
  by_cases h : l.getLast? = some '/'
  · obtain ⟨ys, rfl⟩ := List.getLast?_eq_some_iff.mp h
    rw [stripTrailingSlash, if_pos h, List.dropLast_concat]
    intro habs
    obtain ⟨zs, rfl⟩ := List.getLast?_eq_some_iff.mp habs
    rw [List.append_assoc] at hl
    simp [noDoubleSlash_concat_pair] at hl
  · rw [stripTrailingSlash, if_neg h]
    exact h

lemma stripTrailingSlash_noDoubleSlash (l : List Char) (hl : noDoubleSlash l = true) :
    noDoubleSlash (stripTrailingSlash l) = true := by
  by_cases h : l.getLast? = some '/'
  · obtain ⟨ys, rfl⟩ := List.getLast?_eq_some_iff.mp h
    rw [stripTrailingSlash, if_pos h, List.dropLast_concat]
    exact noDoubleSlash_of_append_left ys ['/'] hl
  · rwa [stripTrailingSlash, if_neg h]

lemma stripTrailingSlash_head (l : List Char) (h : 2 ≤ l.length) :
    (stripTrailingSlash l).head? = l.head? := by
  by_cases hg : l.getLast? = some '/'
  · obtain ⟨ys, rfl⟩ := List.getLast?_eq_some_iff.mp hg
    rw [stripTrailingSlash, if_pos hg, List.dropLast_concat]
    cases ys with
    | nil => simp at h
    | cons a as => simp
  · rw [stripTrailingSlash, if_neg hg]

lemma collapseAux_false_cons_slash (l : List Char) :
    collapseAux false ('/' :: l) = '/' :: collapseAux true l := by
  simp [collapseAux]

lemma collapseAux_true_cons_slash (l : List Char) :
    collapseAux true ('/' :: l) = collapseAux true l := by
  simp [collapseAux]

lemma normalizePath_eq (p : String) (hp : p ≠ "") :
    normalizePath p =
      some (String.mk (stripTrailingSlash ('/' :: collapseAux true p.data))) := by
  rw [normalizePath, if_neg hp, collapseSlashes, collapseAux_false_cons_slash]

/-- The full characterization of a `normalizePath` result on non-empty input:
no repeated separator, no trailing separator, it starts with a separator
unless it is empty, and it is empty exactly when the input is all slashes. -/
lemma normalizePath_spec (p : String) (hp : p ≠ "") :
    ∃ s, normalizePath p = some s ∧
      noDoubleSlash s.data = true ∧
      s.data.getLast? ≠ some '/' ∧
      (s.data = [] ∨ s.data.head? = some '/') ∧
      (s.data = [] ↔ ∀ c ∈ p.data, c = '/') := by
  have hnds : noDoubleSlash ('/' :: collapseAux true p.data) = true := by
    rw [← collapseAux_false_cons_slash]
    exact noDoubleSlash_collapseAux _ false
  refine ⟨_, normalizePath_eq p hp, ?_, ?_, ?_, ?_⟩
  · exact stripTrailingSlash_noDoubleSlash _ hnds
  · exact stripTrailingSlash_getLast _ hnds
  · cases ht : collapseAux true p.data with
    | nil =>
      left
      simp [ht, stripTrailingSlash]
    | cons d t' =>
      right
      show (stripTrailingSlash ('/' :: d :: t')).head? = some '/'
      rw [stripTrailingSlash_head ('/' :: d :: t') (by simp)]
      simp
  · cases ht : collapseAux true p.data with
    | nil =>
      simp only [ht, stripTrailingSlash]
      simp only [List.getLast?_singleton, if_pos rfl, List.dropLast_single]
      simpa using (collapseAux_true_eq_nil p.data).mp ht
    | cons d t' =>
      have hne : (stripTrailingSlash ('/' :: d :: t')).head? = some '/' := by
        rw [stripTrailingSlash_head ('/' :: d :: t') (by simp)]
        simp
      constructor
      · intro habs
        have habs' : stripTrailingSlash ('/' :: d :: t') = [] := habs
        rw [habs'] at hne
        simp at hne
      · intro hall
        have : collapseAux true p.data = [] := (collapseAux_true_eq_nil p.data).mpr hall
        rw [ht] at this
        simp at this

/-- A string that is already normalized is a fixed point of `normalizePath`. -/
lemma normalizePath_fixpoint (s : String) (h : isNormalized s = true) :
    normalizePath s = some s := by
  obtain ⟨l⟩ := s
  simp only [isNormalized, Bool.and_eq_true, Bool.not_eq_true', decide_eq_true_eq] at h
  obtain ⟨⟨hhead, hnds⟩, hlast⟩ := h
  cases l with
  | nil => simp at hhead
  | cons c rest =>
    have hc : c = '/' := by simpa using hhead
    subst hc
    have hdempty : ("" : String).data = [] := rfl
    have hns : (String.mk ('/' :: rest)) ≠ "" := by
      intro habs
      have h2 := congrArg String.data habs
      rw [hdempty] at h2
      exact absurd h2 (by simp)
    rw [normalizePath_eq _ hns]
    have hrest : noDoubleSlash rest = true ∧ rest.head? ≠ some '/' := by
      simp only [noDoubleSlash, Bool.and_eq_true, Bool.not_eq_true'] at hnds
      refine ⟨hnds.2, ?_⟩
      intro hh
      simp [hh] at hnds
    have hid := (collapseAux_id rest hrest.1).2 hrest.2
    have hdata : (String.mk ('/' :: rest)).data = '/' :: rest := rfl
    rw [hdata, collapseAux_true_cons_slash, hid, stripTrailingSlash, if_neg]
    intro habs
    rw [decide_eq_false_iff_not] at hlast
    exact hlast (by simpa using habs)

/-! ## HttpAdapter._listen (src/packages/http — adapter) -/

/-- A JavaScript `Error` value: message and stack trace. -/
structure JsErr where
  msg : String
  stack : String
deriving DecidableEq

/-- The payload object built by `_listen` for the `$server:crashed` event. -/
structure CrashPayload where
  message : String
  error : JsErr
  stack : String
  timestamp : String
deriving DecidableEq

/-- Modelled from the spec: `safeEmit(event, payload)` of the event channel
(`HttpEventCore`, whose source is not under `src/`) synchronously invokes every
registered listener and returns whether any listener existed.  The channel is
abstracted by the number of listeners registered for the event, so `safeEmit`
returns whether that count is non-zero. -/
def safeEmit (listenerCount : Nat) : Bool :=
  listenerCount != 0

/-- The observable outcome of one `_listen` call: the `safeEmit` calls it made
(event name with payload) and the error it re-threw, if any. -/
structure ListenOutcome where
  emitted : List (String × CrashPayload)
  thrown : Option JsErr
deriving DecidableEq

/-- `HttpAdapter._listen(port, hostname?, message?)`.  `listenResult` is the
outcome of `this._transport.listen(...)` (`.error e` models a throw);
`crashListeners` is the number of listeners registered for `$server:crashed`;
`now` is `new Date().toISOString()`.  On a throw, `_listen` calls
`safeEmit('$server:crashed', payload)` and re-throws the original error exactly
when `safeEmit` reported no listener. -/
def adapterListen (listenResult : Except JsErr Unit) (crashListeners : Nat)
    (now : String) : ListenOutcome :=
  match listenResult with
  | Except.ok _ => ⟨[], none⟩
  | Except.error e =>
    let payload : CrashPayload :=
      ⟨"Failed to start HTTP server", e, e.stack, now⟩
    let listener := safeEmit crashListeners
    if !listener then ⟨[("$server:crashed", payload)], some e⟩
    else ⟨[("$server:crashed", payload)], none⟩

/-! ## HttpCore (src/packages/http/http-core.ts) -/

/-- The action taken by `HttpCore.system` on a given event name: trigger
`_listen` with the payload's `port`, `host` and `message` fields, register the
listener on an internal event, or throw an error message. -/
inductive SystemAction where
  | listen (port host message : Option String)
  | register (internalEvent : String)
  | throwErr (msg : String)
deriving DecidableEq

/-- `HttpCore.system(event, listener)`.  The switch over the event name:
`'ready'` triggers `_listen(listener['port'], listener['host'],
listener['message'])` (the listener argument read as an object, modelled as the
field lookup `payload`); `'crashed'`, `'router:miss'` and `'request:failed'`
register the listener on the corresponding internal event; any other name
throws `` Error(`Unknown system event: ${event}`) ``. -/
def system (event : String) (payload : String → Option String) : SystemAction :=
  if event = "ready" then
    SystemAction.listen (payload "port") (payload "host") (payload "message")
  else if event = "crashed" then SystemAction.register "$server:crashed"
  else if event = "router:miss" then SystemAction.register "$router:miss"
  else if event = "request:failed" then SystemAction.register "$request:failed"
  else SystemAction.throwErr ("Unknown system event: " ++ event)

/-- Modelled from the spec: an entry of the MiddlewareRegistry
(`this.channel.middleware`, whose source is not under `src/`): `use(fn)`
appends a global entry, `use(path, fn)` appends a path-scoped entry, in
insertion order. -/
inductive MWEntry where
  | global (m : JsVal)
  | scoped (path : String) (m : JsVal)

/-- The `else` branch of `HttpCore.use`: `args[0].forEach((middleware) =>
this.channel.middleware.use(middleware))`.  Iterating a non-array throws a
`TypeError` (`.error`); an array appends one global entry per element. -/
def forEachGlobals (v : JsVal) (reg : List MWEntry) :
    Except String (List MWEntry) :=
  match v with
  | JsVal.arr ms => Except.ok (ms.foldl (fun r m => r ++ [MWEntry.global m]) reg)
  | _ => Except.error "TypeError: args[0].forEach is not a function"

/-- `HttpCore.use(...args)` acting on the middleware registry `reg`.  With two
arguments it registers a path-scoped middleware only when the first is a string
and the second a function, and otherwise falls through doing nothing; with one
function argument it registers a global middleware; in every other case it
iterates `args[0]` registering each element. -/
def use (args : List JsVal) (reg : List MWEntry) :
    Except String (List MWEntry) :=
  match args with
  | [path, middleware] =>
    if isString path && isFunction middleware then
      Except.ok (reg ++ [MWEntry.scoped (asString path) middleware])
    else
      Except.ok reg
  | [m] =>
    if isFunction m then Except.ok (reg ++ [MWEntry.global m])
    else forEachGlobals m reg
  | other => forEachGlobals (other.headD JsVal.undef) reg

/-- Modelled from the spec: a plugin unit's configuration is a string-keyed
mapping, here an association list; setting a field replaces the value of an
existing key and appends a new key otherwise. -/
def setField (cfg : List (String × String)) (kv : String × String) :
    List (String × String) :=
  if cfg.any (fun p => p.1 = kv.1) then
    cfg.map (fun p => if p.1 = kv.1 then kv else p)
  else cfg ++ [kv]

/-- Modelled from the spec: `updateMany(partial)` of a plugin unit
(`PluginsManager`, whose source is not under `src/`) merges the given fields
into the current config, leaving unspecified fields untouched. -/
def updateMany (cfg args : List (String × String)) : List (String × String) :=
  args.foldl setField cfg

/-- Modelled from the spec: the CORS unit's `createMiddleware()` returns the
CORS middleware function, a value distinct from every other unit's. -/
def corsCreateMiddleware : JsVal := JsVal.fn 0

/-- Modelled from the spec: the body-parser unit's `createMiddleware()` returns
the body-parser middleware function. -/
def bodyParserCreateMiddleware : JsVal := JsVal.fn 1

/-- The part of the `HttpCore` state the plugin-facing methods touch: the CORS
and body-parser unit configurations and the middleware registry. -/
structure CoreState where
  corsConfig : List (String × String)
  bodyParserConfig : List (String × String)
  registry : List MWEntry

/-- `HttpCore.enableCors(args)`: merges `args` into the CORS unit's config via
`updateMany`, then `this.use(this._plugins.cors.createMiddleware())`. -/
def enableCors (args : List (String × String)) (s : CoreState) :
    Except String CoreState := do
  let s' := { s with corsConfig := updateMany s.corsConfig args }
  let reg ← use [corsCreateMiddleware] s'.registry
  pure { s' with registry := reg }

/-- `HttpCore.useBodyParser(args)`: merges `args` into the body-parser unit's
config via `updateMany`, then — as the source is written —
`this.use(this._plugins.cors.createMiddleware())`: the registered middleware
comes from the CORS unit. -/
def useBodyParser (args : List (String × String)) (s : CoreState) :
    Except String CoreState := do
  let s' := { s with bodyParserConfig := updateMany s.bodyParserConfig args }
  let reg ← use [corsCreateMiddleware] s'.registry
  pure { s' with registry := reg }

/-! ## Auxiliary facts about strings -/

lemma emptyString_data : ("" : String).data = [] := rfl

lemma eq_empty_iff_data (s : String) : s = "" ↔ s.data = [] := by
  constructor
  · intro h
    rw [h]
  · intro h
    obtain ⟨l⟩ := s
    have hl : l = [] := h
    rw [hl]

/-! ## The claims -/

/-- C4: `normalizePath` throws (returns `none`) exactly on the empty string:
`normalizePath "" = none`, every non-empty input yields a result, and
`normalizePath "//a//b/" = "/a/b"`. -/
theorem C4_normalizePath_empty_error :
    normalizePath "" = none ∧
    (∀ p : String, p ≠ "" → (normalizePath p).isSome = true) ∧
    normalizePath "//a//b/" = some "/a/b" := by
  refine ⟨rfl, ?_, by decide⟩
  intro p hp
  rw [normalizePath, if_neg hp]
  rfl

/-- Witness for C4 at the non-empty input `"/x"`. -/
theorem C4_witness : (normalizePath "/x").isSome = true :=
  C4_normalizePath_empty_error.2.1 "/x" (by decide)

/-- C5 as stated is false: `"/"` is non-empty, yet `normalizePath "/"` returns
the empty string, which is not a normalized path (it is empty and has no
leading separator). -/
theorem C5_counterexample :
    ("/" : String) ≠ "" ∧ normalizePath "/" = some "" ∧ isNormalized "" = false := by
  refine ⟨by decide, by decide, by decide⟩

/-- C5 (amended): for every non-empty input containing at least one
non-separator character, `normalizePath` returns a normalized path: non-empty,
a single leading separator, no repeated and no trailing separator.  (For a
non-empty input consisting only of separators the result is the empty
string.) -/
theorem C5_normalizePath_normalized (p : String) (hp : p ≠ "")
    (hc : ∃ c ∈ p.data, c ≠ '/') :
    ∃ s, normalizePath p = some s ∧ isNormalized s = true := by
  obtain ⟨s, hs, hnds, hlast, hhead, hiff⟩ := normalizePath_spec p hp
  refine ⟨s, hs, ?_⟩
  have hne : s.data ≠ [] := by
    intro h0
    obtain ⟨c, hcmem, hcne⟩ := hc
    exact hcne (hiff.mp h0 c hcmem)
  rcases hhead with h0 | hh
  · exact absurd h0 hne
  · simp [isNormalized, hh, hnds, hlast]

/-- Witness for C5 at the input `"//a//b/"`. -/
theorem C5_witness :
    ∃ s, normalizePath "//a//b/" = some s ∧ isNormalized s = true :=
  C5_normalizePath_normalized "//a//b/" (by decide) (by decide)

/-- C1 as stated is false: `"/"` is non-empty, but `normalizePath "/"` is the
empty string, and applying `normalizePath` to that output throws (the
re-application returns `none`), so `normalizePath` is not idempotent on
`"/"`. -/
theorem C1_counterexample :
    ("/" : String) ≠ "" ∧ normalizePath "/" = some "" ∧ normalizePath "" = none := by
  refine ⟨by decide, by decide, rfl⟩

/-- C1 (amended): `normalizePath` is idempotent on every non-empty input that
contains at least one non-separator character: re-applying it to the output
does not throw and returns the output unchanged.  (On a non-empty all-separator
input the output is the empty string, on which `normalizePath` throws.) -/
theorem C1_normalizePath_idempotent (p s : String) (hp : p ≠ "")
    (hc : ∃ c ∈ p.data, c ≠ '/') (hn : normalizePath p = some s) :
    normalizePath s = some s := by
  obtain ⟨s', hs', hnds, hlast, hhead, hiff⟩ := normalizePath_spec p hp
  rw [hn] at hs'
  have hss : s = s' := Option.some.inj hs'
  subst hss
  apply normalizePath_fixpoint
  have hne : s.data ≠ [] := by
    intro h0
    obtain ⟨c, hcmem, hcne⟩ := hc
    exact hcne (hiff.mp h0 c hcmem)
  rcases hhead with h0 | hh
  · exact absurd h0 hne
  · simp [isNormalized, hh, hnds, hlast]

/-- Witness for C1 at the input `"/a//b"`, whose normalization is `"/a/b"`. -/
theorem C1_witness : normalizePath "/a/b" = some "/a/b" :=
  C1_normalizePath_idempotent "/a//b" "/a/b" (by decide) (by decide) (by decide)

/-- C3: the two concrete combinations hold, and in general `combinePaths`
normalizes the prefix (treating an absent one as empty) and the path
independently, concatenates them, and collapses separator runs in the
concatenation, so the result has no doubled separator and the path part always
carries its own leading separator (none is missing). -/
theorem C3_combinePaths_correct :
    combinePaths (some "/api") "/users" = some "/api/users" ∧
    combinePaths none "/users" = some "/users" ∧
    ∀ (pfx : Option String) (path : String), path ≠ "" →
      ∃ np npath s, normalizedPfx pfx = some np ∧ normalizePath path = some npath ∧
        combinePaths pfx path = some s ∧
        s.data = np.data ++ npath.data ∧
        noDoubleSlash s.data = true ∧
        (npath ≠ "" → npath.data.head? = some '/') := by
  refine ⟨by decide, by decide, ?_⟩
  intro pfx path hpath
  obtain ⟨npath, hnp, hnds, hlastp, hhead, _⟩ := normalizePath_spec path hpath
  have hheadC : npath ≠ "" → npath.data.head? = some '/' := by
    intro hne
    rcases hhead with h0 | hh
    · exact absurd ((eq_empty_iff_data npath).mpr h0) hne
    · exact hh
  have main : ∀ np : String, normalizedPfx pfx = some np →
      noDoubleSlash np.data = true → np.data.getLast? ≠ some '/' →
      ∃ np' npath' s, normalizedPfx pfx = some np' ∧ normalizePath path = some npath' ∧
        combinePaths pfx path = some s ∧
        s.data = np'.data ++ npath'.data ∧
        noDoubleSlash s.data = true ∧
        (npath' ≠ "" → npath'.data.head? = some '/') := by
    intro np hpfx hnp1 hnp2
    have hcat : noDoubleSlash (np.data ++ npath.data) = true :=
      noDoubleSlash_append _ _ hnp1 hnds hnp2
    have hcol : collapseSlashes (np.data ++ npath.data) = np.data ++ npath.data :=
      (collapseAux_id _ hcat).1
    refine ⟨np, npath, String.mk (np.data ++ npath.data), hpfx, hnp, ?_, rfl, hcat, hheadC⟩
    simp [combinePaths, hpfx, hnp, hcol]
  cases pfx with
  | none =>
    refine main "" rfl rfl ?_
    rw [emptyString_data]
    simp
  | some p0 =>
    by_cases hp0 : p0 = ""
    · refine main "" (by simp [normalizedPfx, hp0]) rfl ?_
      rw [emptyString_data]
      simp
    · obtain ⟨np, hnp0, h1, h2, _, _⟩ := normalizePath_spec p0 hp0
      exact main np (by simp [normalizedPfx, hp0, hnp0]) h1 h2

/-- Witness for C3 at the prefix `"/api"` and path `"/users"`. -/
theorem C3_witness :
    ∃ np npath s, normalizedPfx (some "/api") = some np ∧
      normalizePath "/users" = some npath ∧
      combinePaths (some "/api") "/users" = some s ∧
      s.data = np.data ++ npath.data ∧
      noDoubleSlash s.data = true ∧
      (npath ≠ "" → npath.data.head? = some '/') :=
  C3_combinePaths_correct.2.2 (some "/api") "/users" (by decide)

/-- C2: when the transport `listen` throws inside `_listen`, the adapter calls
`safeEmit('$server:crashed', payload)` with message, error, stack and
timestamp; with zero `$server:crashed` listeners the original error is
re-thrown, with at least one listener `_listen` returns without throwing; and a
successful `listen` emits no crashed event. -/
theorem C2_listen_crash_handling (e : JsErr) (n : Nat) (now : String) :
    (adapterListen (Except.error e) n now).emitted =
      [("$server:crashed",
        CrashPayload.mk "Failed to start HTTP server" e e.stack now)] ∧
    (n = 0 → safeEmit n = false ∧
      (adapterListen (Except.error e) n now).thrown = some e) ∧
    (n ≠ 0 → safeEmit n = true ∧
      (adapterListen (Except.error e) n now).thrown = none) ∧
    adapterListen (Except.ok ()) n now = ⟨[], none⟩ := by
  refine ⟨?_, ?_, ?_, rfl⟩
  · cases n with
    | zero => rfl
    | succ k => rfl
  · intro h0
    subst h0
    exact ⟨rfl, rfl⟩
  · intro hne
    cases n with
    | zero => exact absurd rfl hne
    | succ k => exact ⟨rfl, rfl⟩

/-- Witness for C2 at a concrete error, with zero and with one listener. -/
theorem C2_witness :
    (adapterListen (Except.error ⟨"boom", "trace"⟩) 0 "t").thrown =
        some ⟨"boom", "trace"⟩ ∧
    (adapterListen (Except.error ⟨"boom", "trace"⟩) 1 "t").thrown = none :=
  ⟨((C2_listen_crash_handling ⟨"boom", "trace"⟩ 0 "t").2.1 rfl).2,
   ((C2_listen_crash_handling ⟨"boom", "trace"⟩ 1 "t").2.2.1 (by decide)).2⟩

/-- C6: `system` called with any event name outside
`{ready, crashed, router:miss, request:failed}` throws an error whose message
names the unrecognized event, registering no listener and triggering no
action. -/
theorem C6_system_unknown_event (ev : String) (payload : String → Option String)
    (h : ev ∉ (["ready", "crashed", "router:miss", "request:failed"] : List String)) :
    system ev payload = SystemAction.throwErr ("Unknown system event: " ++ ev) := by
  simp only [List.mem_cons, List.mem_singleton, not_or] at h
  obtain ⟨h1, h2, h3, h4⟩ := h
  simp [system, h1, h2, h3, h4]

/-- Witness for C6 at the unrecognized event name `"boom"`. -/
theorem C6_witness :
    system "boom" (fun _ => none) =
      SystemAction.throwErr ("Unknown system event: " ++ "boom") :=
  C6_system_unknown_event "boom" (fun _ => none) (by decide)

/-- C7: `system('ready', payload)` triggers the transport listen with the
payload's `port`, `host` and `message`; `'crashed'`, `'router:miss'` and
`'request:failed'` register the listener on `$server:crashed`, `$router:miss`
and `$request:failed` respectively, and do not trigger listen. -/
theorem C7_system_dispatch (payload : String → Option String) :
    system "ready" payload =
      SystemAction.listen (payload "port") (payload "host") (payload "message") ∧
    system "crashed" payload = SystemAction.register "$server:crashed" ∧
    system "router:miss" payload = SystemAction.register "$router:miss" ∧
    system "request:failed" payload = SystemAction.register "$request:failed" :=
  ⟨rfl, rfl, rfl, rfl⟩

/-- C8: `validateMethod` throws an error naming the offending member exactly
when the prototype lookup of the member is `undefined` (a non-instance member);
for an instance member it returns with no other effect. -/
theorem C8_validateMethod (proto : String → JsVal) (k : String) :
    (isUndefined (proto k) = true →
      validateMethod proto k =
        Except.error ("Decorators cannot be applied to static methods: " ++ k)) ∧
    (isUndefined (proto k) = false → validateMethod proto k = Except.ok ()) := by
  constructor
  · intro h
    simp [validateMethod, h]
  · intro h
    simp [validateMethod, h]

/-- Witness for C8: a member absent from the prototype is rejected with an
error naming it, and a present member is accepted. -/
theorem C8_witness :
    validateMethod (fun _ => JsVal.undef) "handler" =
      Except.error ("Decorators cannot be applied to static methods: " ++ "handler") ∧
    validateMethod (fun _ => JsVal.fn 5) "handler" = Except.ok () :=
  ⟨(C8_validateMethod (fun _ => JsVal.undef) "handler").1 rfl,
   (C8_validateMethod (fun _ => JsVal.fn 5) "handler").2 rfl⟩

/-- C9: `useBodyParser(args)` merges `args` into the body-parser config via
`updateMany` but registers the CORS unit's middleware into the chain, exactly
as `enableCors` does after updating the CORS config; the two units' middleware
functions are distinct values. -/
theorem C9_useBodyParser_registers_cors
    (args : List (String × String)) (s : CoreState) :
    useBodyParser args s = Except.ok
      { corsConfig := s.corsConfig,
        bodyParserConfig := updateMany s.bodyParserConfig args,
        registry := s.registry ++ [MWEntry.global corsCreateMiddleware] } ∧
    enableCors args s = Except.ok
      { corsConfig := updateMany s.corsConfig args,
        bodyParserConfig := s.bodyParserConfig,
        registry := s.registry ++ [MWEntry.global corsCreateMiddleware] } ∧
    corsCreateMiddleware ≠ bodyParserCreateMiddleware := by
  refine ⟨rfl, rfl, ?_⟩
  intro h
  simp [corsCreateMiddleware, bodyParserCreateMiddleware] at h

/-- C10: `use` with exactly two arguments where the first is not a string or
the second is not a function returns normally, throws nothing, and leaves the
middleware registry unchanged. -/
theorem C10_use_two_args_no_match (a b : JsVal) (reg : List MWEntry)
    (h : isString a = false ∨ isFunction b = false) :
    use [a, b] reg = Except.ok reg := by
  rcases h with h | h <;> simp [use, h]

/-- Witness for C10: two functions (the first argument is not a string)
register nothing. -/
theorem C10_witness : use [JsVal.fn 0, JsVal.fn 1] [] = Except.ok [] :=
  C10_use_two_args_no_match (JsVal.fn 0) (JsVal.fn 1) [] (Or.inl rfl)

end Gland
